import Mathlib

set_option maxRecDepth 8000

/-
  Verification of the arch-scheduling-controller reconciliation core
  (controller/controller.go).  The Go functions are shallowly embedded as
  executable Lean definitions; external collaborators (the informer cache,
  the cluster API client, the log transport) are passed in as explicit
  oracle functions, so that each code path of the controller is a pure
  computation over those oracles.
-/

namespace ASC

/-- The exact crash-log signature: the `errorMessage` constant of
controller.go, byte for byte (including the trailing newline). -/
def errorMessage : String :=
  "standard_init_linux.go:211: exec user process caused \"exec format error\"\n"

/-- The `patchJSON` constant of controller.go: a Go raw-string template
(beginning and ending with a newline) whose single `%s` verb is filled with
the excluded architecture value by `fmt.Sprintf`. -/
def patchJSOND : String :=
  "\n\x7b\n  \"spec\": \x7b\n    \"template\": \x7b\n      \"spec\": \x7b\n        \"affinity\": \x7b\n          \"nodeAffinity\": \x7b\n            \"requiredDuringSchedulingIgnoredDuringExecution\": \x7b\n              \"nodeSelectorTerms\": [\n                \x7b\n                  \"matchExpressions\": [\n                    \x7b\n                      \"key\": \"beta.kubernetes.io/arch\",\n                      \"operator\": \"NotIn\",\n                      \"values\": [\n                        \"%s\"\n                      ]\n                    \x7d\n                  ]\n                \x7d\n              ]\n            \x7d\n          \x7d\n        \x7d\n      \x7d\n    \x7d\n  \x7d\n\x7d\n"

/-- The part of `patchJSOND` strictly before its `%s` verb. -/
def patchPre : String :=
  "\n\x7b\n  \"spec\": \x7b\n    \"template\": \x7b\n      \"spec\": \x7b\n        \"affinity\": \x7b\n          \"nodeAffinity\": \x7b\n            \"requiredDuringSchedulingIgnoredDuringExecution\": \x7b\n              \"nodeSelectorTerms\": [\n                \x7b\n                  \"matchExpressions\": [\n                    \x7b\n                      \"key\": \"beta.kubernetes.io/arch\",\n                      \"operator\": \"NotIn\",\n                      \"values\": [\n                        \""

/-- The part of `patchJSOND` strictly after its `%s` verb. -/
def patchPost : String :=
  "\"\n                      ]\n                    \x7d\n                  ]\n                \x7d\n              ]\n            \x7d\n          \x7d\n        \x7d\n      \x7d\n    \x7d\n  \x7d\n\x7d\n"

/-- Replace the first `%s` verb of a format string, copying everything else
verbatim.  This is `fmt.Sprintf` specialised to format strings that contain
exactly one verb, which is how controller.go uses it on `patchJSON`. -/
def sprintf1Aux (arg : List Char) : List Char → List Char
  | [] => []
  | [c] => [c]
  | c :: d :: rest =>
    if c = '%' then
      if d = 's' then arg ++ rest
      else c :: sprintf1Aux arg (d :: rest)
    else c :: sprintf1Aux arg (d :: rest)

/-- `fmt.Sprintf` on a one-verb format string. -/
def sprintf1 (format arg : String) : String := ⟨sprintf1Aux arg.data format.data⟩

/-- `fmt.Sprintf(patchJSON, arch)`: the patch document built in
`reSchedulePod` for the excluded architecture value `arch`. -/
def buildPatch (arch : String) : String := sprintf1 patchJSOND arch

/-- A single owner reference of a cluster object (`metav1.OwnerReference`):
the declared kind and name of the owner, and whether this reference is the
controlling one (`Controller` field set and true). -/
structure OwnerRef where
  kind : String
  name : String
  controller : Bool
deriving DecidableEq

/-- A container in a pod spec (only the name is used by the controller). -/
structure Container where
  name : String
deriving DecidableEq

/-- A container status: the container name, and — when the container is in
the waiting state — the waiting reason (`none` models `State.Waiting == nil`). -/
structure ContainerStatus where
  name : String
  waitingReason : Option String
deriving DecidableEq

/-- The snapshot of a pod (`v1.Pod`) as used by the controller: its TypeMeta
kind, namespace (`nspace`), name, resource version, assigned node name, spec
containers, container statuses, and owner references. -/
structure Pod where
  kind : String
  nspace : String
  name : String
  resourceVersion : String
  nodeName : String
  containers : List Container
  containerStatuses : List ContainerStatus
  ownerReferences : List OwnerRef
deriving DecidableEq

/-- A generic cluster object as seen through `metav1.Object` during the
owner-chain walk: name, namespace, owner references. -/
structure KObj where
  name : String
  nspace : String
  ownerReferences : List OwnerRef
deriving DecidableEq

/-- The `metav1.Object` view of a pod. -/
def Pod.toKObj (p : Pod) : KObj := ⟨p.name, p.nspace, p.ownerReferences⟩

/-- A node (`v1.Node`) as used by the controller: only its label map. -/
structure NodeInfo where
  labels : List (String × String)
deriving DecidableEq

/-- Go map indexing on the node's labels: the value at `k`, or the empty
string when the key is absent. -/
def nodeLabel (n : NodeInfo) (k : String) : String :=
  (List.lookup k n.labels).getD ""

/-- The result of the owner-chain walk (`controllerObject` in
controller.go): kind, name and namespace of the terminal object. -/
structure controllerObject where
  kind : String
  name : String
  nspace : String
deriving DecidableEq

/-- `metav1.GetControllerOf`: the first owner reference marked as the
controlling one, if any. -/
def getControllerOf (o : KObj) : Option OwnerRef :=
  o.ownerReferences.find? (fun r => r.controller)

/-- Lower-case characters as Go `strings.ToLower` does on ASCII input
(kind names are ASCII). -/
def toLowerAscii (s : String) : String := ⟨s.data.map Char.toLower⟩

/-- gengo's consonant test (lower-case ASCII consonants only). -/
def isConsonant (c : Char) : Bool := "bcdfghjklmnpqrstvwxyz".data.contains c

/-- The pluralisation heuristic of gengo's `NewAllLowercasePluralNamer`
with an empty exception map, before the final lower-casing: switch on the
last character ('s'/'x'/'z' add "es"; consonant+'y' turns into "ies";
'c'/'s'+'h' add "es"; 'f'+'e' and 'f' turn into "ves"; default adds "s");
names shorter than two characters are returned unchanged. -/
def pluralWord (singular : String) : String :=
  match singular.data.reverse with
  | [] => singular
  | [_] => singular
  | last :: prev :: _ =>
    if last = 's' ∨ last = 'x' ∨ last = 'z' then singular ++ "es"
    else if last = 'y' then
      if isConsonant prev then String.mk singular.data.dropLast ++ "ies"
      else singular ++ "s"
    else if last = 'h' then
      if prev = 'c' ∨ prev = 's' then singular ++ "es" else singular ++ "s"
    else if last = 'e' then
      if prev = 'f' then String.mk singular.data.dropLast.dropLast ++ "ves"
      else singular ++ "s"
    else if last = 'f' then String.mk singular.data.dropLast ++ "ves"
    else singular ++ "s"

/-- `lowercaseAndPluralise` of controller.go: the kind→resource-path mapping
(pluralise, then lower-case everything). -/
def lowercaseAndPluralise (s : String) : String := toLowerAscii (pluralWord s)

/-- `cache.MetaNamespaceKeyFunc` on an object with namespace `ns` and name
`nm`: `ns/nm`, or just `nm` for an empty namespace. -/
def metaNamespaceKey (ns nm : String) : String :=
  if ns = "" then nm else ns ++ "/" ++ nm

/-- Go `strings.Split(s, "/")` restricted to the slash separator, as used by
`cache.SplitMetaNamespaceKey`. -/
def splitSlashAux : List Char → List Char → List String
  | [], acc => [String.mk acc.reverse]
  | c :: rest, acc =>
    if c = '/' then String.mk acc.reverse :: splitSlashAux rest []
    else splitSlashAux rest (c :: acc)

/-- Split a string at every slash. -/
def splitSlash (s : String) : List String := splitSlashAux s.data []

/-- `cache.SplitMetaNamespaceKey`: one part means name only, two parts mean
namespace and name, anything else is a malformed key. -/
def splitMetaNamespaceKey (key : String) : Except String (String × String) :=
  match splitSlash key with
  | [nm] => Except.ok ("", nm)
  | [ns, nm] => Except.ok ((ns, nm))
  | _ => Except.error ("unexpected key format: " ++ key)

/-- Is this container status waiting with reason "CrashLoopBackOff"
(`cs.State.Waiting != nil && cs.State.Waiting.Reason == "CrashLoopBackOff"`)? -/
def isCrashLoop (cs : ContainerStatus) : Bool :=
  cs.waitingReason == some "CrashLoopBackOff"

/-- Did a log fetch produce exactly the signature?  A failed fetch or read
(`Except.error`) never matches. -/
def isSigLog : Except String String → Bool
  | Except.ok t => t = errorMessage
  | Except.error _ => false

/-- The inner loop of `handleObject`: for each container of the pod spec (in
order) fetch its log through the accessor `g`; a stream/read failure skips
the container; a captured text equal to `errorMessage` stops the whole scan.
Returns whether a match was found together with the names of the containers
whose logs were requested, in request order. -/
def scanContainers (g : String → Except String String) :
    List Container → Bool × List String
  | [] => (false, [])
  | c :: rest =>
    match g c.name with
    | Except.error _ =>
      let r := scanContainers g rest
      (r.1, c.name :: r.2)
    | Except.ok text =>
      if text = errorMessage then (true, [c.name])
      else
        let r := scanContainers g rest
        (r.1, c.name :: r.2)

/-- The outer loop of `handleObject`: for each container status that is
waiting with reason "CrashLoopBackOff", run the container scan; a match
returns immediately (the Go code returns from `handleObject`). -/
def scanStatuses (g : String → Except String String) (cts : List Container) :
    List ContainerStatus → Bool × List String
  | [] => (false, [])
  | cs :: rest =>
    if isCrashLoop cs then
      let r := scanContainers g cts
      if r.1 then (true, r.2)
      else
        let r2 := scanStatuses g cts rest
        (r2.1, r.2 ++ r2.2)
    else scanStatuses g cts rest

/-- `handleObject` of controller.go.  `getLogs ns podName containerName`
is the external log-stream accessor (`GetLogs(...).Stream` followed by
`io.Copy`; a failure of either is its `Except.error` case).  The first
component is the work key enqueued via `enqueuePod` (or `none` when nothing
was enqueued); the second component is the trace of log requests made. -/
def handleObject (getLogs : String → String → String → Except String String)
    (pod : Pod) : Option String × List String :=
  let r := scanStatuses (fun cn => getLogs pod.nspace pod.name cn)
    pod.containers pod.containerStatuses
  (if r.1 then some (metaNamespaceKey pod.nspace pod.name) else none, r.2)

/-- The `UpdateFunc` event handler installed by
`NewArchSchedulingController`: drop the notification when the resource
versions of the old and new pod are equal, otherwise run `handleObject` on
the new pod. -/
def onUpdate (getLogs : String → String → String → Except String String)
    (oldPod newPod : Pod) : Option String × List String :=
  if newPod.resourceVersion = oldPod.resourceVersion then (none, [])
  else handleObject getLogs newPod

/-- `getOriginControllerObject` of controller.go.  `fetch resource ns name`
is the generic read against the cluster API (the `AppsV1().RESTClient()`
GET).  The Go recursion has no built-in bound; `fuel` is an upper bound on
the recursion depth added only to make the definition total — every run of
the Go code that terminates is reproduced exactly by any sufficiently large
`fuel`.  On success the result carries the resolved `controllerObject`
together with the number of owner fetches performed. -/
def getOriginControllerObject
    (fetch : String → String → String → Except String KObj) :
    KObj → String → Nat → Except String (controllerObject × Nat)
  | o, kind, fuel =>
    match getControllerOf o with
    | none => Except.ok (⟨kind, o.name, o.nspace⟩, 0)
    | some ref =>
      match fuel with
      | 0 => Except.error "owner chain recursion limit"
      | Nat.succ f =>
        match fetch (lowercaseAndPluralise ref.kind) o.nspace ref.name with
        | Except.error e => Except.error e
        | Except.ok next =>
          match getOriginControllerObject fetch next ref.kind f with
          | Except.error e => Except.error e
          | Except.ok (cobj, n) => Except.ok ((cobj, n + 1))

/-- The error the pod lister can return: `IsNotFound`, or anything else. -/
inductive ListerErr where
  | notFound : ListerErr
  | other : String → ListerErr
deriving DecidableEq

/-- The external collaborators consulted during one reconciliation attempt:
the informer cache lister, the generic owner fetch, the node read, and the
outcome of the strategic-merge patch request. -/
structure World where
  lister : String → String → Except ListerErr Pod
  fetchOwner : String → String → String → Except String KObj
  nodeGet : String → Except String NodeInfo
  patchResult : controllerObject → String → Except String Unit

/-- `reSchedulePod` of controller.go.  Returns the error result of the
function together with the list of patch requests issued through
`patchToControllerObject` (target object and patch body).  A malformed key
and a not-found pod are handled inside and yield a `nil` error, exactly as
in the source. -/
def reSchedulePod (w : World) (fuel : Nat) (key : String) :
    Except String Unit × List (controllerObject × String) :=
  match splitMetaNamespaceKey key with
  | Except.error _ => (Except.ok (), [])
  | Except.ok (ns, nm) =>
    match w.lister ns nm with
    | Except.error ListerErr.notFound => (Except.ok (), [])
    | Except.error (ListerErr.other e) => (Except.error e, [])
    | Except.ok pod =>
      match getOriginControllerObject w.fetchOwner pod.toKObj pod.kind fuel with
      | Except.error e => (Except.error e, [])
      | Except.ok (cobj, _) =>
        match w.nodeGet pod.nodeName with
        | Except.error e => (Except.error e, [])
        | Except.ok node =>
          let p := buildPatch (nodeLabel node "beta.kubernetes.io/arch")
          match w.patchResult cobj p with
          | Except.error e => (Except.error e, [(cobj, p)])
          | Except.ok _ => (Except.ok (), [(cobj, p)])

/-- The operations `processEnqueuedItem` performs on the work queue. -/
inductive QueueOp where
  | done : QueueOp
  | forget : QueueOp
  | addRateLimited : QueueOp
deriving DecidableEq, BEq

/-- An item popped from the work queue: a string key, or something else
(the `obj.(string)` type assertion can fail). -/
inductive WorkItem where
  | str : String → WorkItem
  | nonString : WorkItem
deriving DecidableEq

/-- The body of `processEnqueuedItem` after a successful `Get`: returns
whether the worker loop continues, the queue operations performed on the
item in order (the deferred `Done` runs last), and the patch requests
issued. -/
def processEnqueuedItem (w : World) (fuel : Nat) (item : WorkItem) :
    Bool × List QueueOp × List (controllerObject × String) :=
  match item with
  | WorkItem.nonString => (true, [QueueOp.forget, QueueOp.done], [])
  | WorkItem.str key =>
    match reSchedulePod w fuel key with
    | (Except.error _, ps) => (true, [QueueOp.addRateLimited, QueueOp.done], ps)
    | (Except.ok _, ps) => (true, [QueueOp.forget, QueueOp.done], ps)

/-- `processEnqueuedItem` including the `Get` call: `none` models the
shutdown signal, on which the function returns `false` and the worker loop
in `Run` stops. -/
def processStep (w : World) (fuel : Nat) (popped : Option WorkItem) :
    Bool × List QueueOp × List (controllerObject × String) :=
  match popped with
  | none => (false, [], [])
  | some item => processEnqueuedItem w fuel item

/-
  Spec-side definitions.  `affinityPatchDoc` renders, without any
  whitespace, the partial-update document the spec describes in §4.5: a pod
  template carrying a required-during-scheduling node affinity whose
  node-selector term requires the architecture label to be NotIn the
  singleton set of the excluded value.  It is compared with the document the
  code builds (`buildPatch`) after discarding the template's decorative
  whitespace.
-/

/-- A JSON string literal (no escaping: architecture values are plain). -/
def jstr (s : String) : String := "\"" ++ s ++ "\""

/-- Comma-separated concatenation. -/
def commaSep : List String → String
  | [] => ""
  | [x] => x
  | x :: y :: rest => x ++ "," ++ commaSep (y :: rest)

/-- A JSON array from already-rendered elements. -/
def jarr (xs : List String) : String := "[" ++ commaSep xs ++ "]"

/-- A JSON object field from a key and an already-rendered value. -/
def jfield (k v : String) : String := jstr k ++ ":" ++ v

/-- A JSON object from already-rendered fields. -/
def jobj (fs : List String) : String := "\x7b" ++ commaSep fs ++ "\x7d"

/-- Modelled from the spec (§4.5, BuildPatch): the object's pod template
must carry a required-during-scheduling node affinity rule whose
node-selector term requires the architecture label to be NotIn the set
containing exactly the excluded value. -/
def affinityPatchDoc (arch : String) : String :=
  jobj [jfield "spec"
    (jobj [jfield "template"
      (jobj [jfield "spec"
        (jobj [jfield "affinity"
          (jobj [jfield "nodeAffinity"
            (jobj [jfield "requiredDuringSchedulingIgnoredDuringExecution"
              (jobj [jfield "nodeSelectorTerms"
                (jarr [jobj [jfield "matchExpressions"
                  (jarr [jobj [jfield "key" (jstr "beta.kubernetes.io/arch"),
                    jfield "operator" (jstr "NotIn"),
                    jfield "values" (jarr [jstr arch])]])]])])])])])])])]

/-- Whitespace characters occurring in the `patchJSON` template. -/
def isWs (c : Char) : Bool := c = ' ' || c = '\n'

/-- Drop every whitespace character of a string. -/
def stripWs (s : String) : String := String.mk (s.data.filter (fun c => !isWs c))

/-- The names of the containers the inner scan requests logs for: every
container in order up to and including the first one whose log equals the
signature. -/
def scanTrace (g : String → Except String String) : List Container → List String
  | [] => []
  | c :: rest =>
    if isSigLog (g c.name) then [c.name] else c.name :: scanTrace g rest

/-- `n` repetitions of a name list (one full container scan per
crash-looping status when no log matches). -/
def repTrace (n : Nat) (names : List String) : List String :=
  match n with
  | 0 => []
  | Nat.succ k => names ++ repTrace k names

/-- The number of crash-looping container statuses. -/
def countCrash : List ContainerStatus → Nat
  | [] => 0
  | cs :: rest => countCrash rest + (if isCrashLoop cs then 1 else 0)

/-- A well-formed owner chain under the fetch oracle `fetch`: starting from
`obj` (whose declared kind is `kind`), each controlling owner reference is
fetched at the resource path `lowercaseAndPluralise` derives from its
declared kind, in the current object's namespace, and the chain ends after
`n` hops at `term`, whose declared kind is `tkind` and which has no
controlling owner reference. -/
inductive OwnerChain (fetch : String → String → String → Except String KObj) :
    KObj → String → KObj → String → Nat → Prop
  | nil (obj : KObj) (kind : String) (h : getControllerOf obj = none) :
      OwnerChain fetch obj kind obj kind 0
  | cons (obj : KObj) (kind : String) (ref : OwnerRef) (next term : KObj)
      (tkind : String) (n : Nat)
      (h : getControllerOf obj = some ref)
      (hf : fetch (lowercaseAndPluralise ref.kind) obj.nspace ref.name =
        Except.ok next)
      (tl : OwnerChain fetch next ref.kind term tkind n) :
      OwnerChain fetch obj kind term tkind (n + 1)

/-- A resolution that fails: after `k` successful owner fetches the walk
reaches an object that has a controlling owner reference whose fetch
returns the error `e`. -/
inductive ResolveFails (fetch : String → String → String → Except String KObj)
    (e : String) : KObj → Nat → Prop
  | here (o : KObj) (ref : OwnerRef)
      (hr : getControllerOf o = some ref)
      (hf : fetch (lowercaseAndPluralise ref.kind) o.nspace ref.name =
        Except.error e) :
      ResolveFails fetch e o 0
  | there (o : KObj) (ref : OwnerRef) (next : KObj) (k : Nat)
      (hr : getControllerOf o = some ref)
      (hf : fetch (lowercaseAndPluralise ref.kind) o.nspace ref.name =
        Except.ok next)
      (tl : ResolveFails fetch e next k) :
      ResolveFails fetch e o (k + 1)

/-
  Concrete fixtures used by witnesses and counterexamples.
-/

/-- A pod owned (controlling reference) by ReplicaSet `rs-a`, with one
container crash-looping. -/
def podW : Pod :=
  { kind := "Pod", nspace := "ns", name := "pod-a", resourceVersion := "1",
    nodeName := "node-1", containers := [⟨"main"⟩],
    containerStatuses := [⟨"main", some "CrashLoopBackOff"⟩],
    ownerReferences := [⟨"ReplicaSet", "rs-a", true⟩] }

/-- ReplicaSet `rs-a`, owned by Deployment `deploy-a`. -/
def rsObj : KObj := ⟨"rs-a", "ns", [⟨"Deployment", "deploy-a", true⟩]⟩

/-- Deployment `deploy-a`, ownerless. -/
def depObj : KObj := ⟨"deploy-a", "ns", []⟩

/-- A fetch oracle serving exactly the two owners of the chain above. -/
def fetchW : String → String → String → Except String KObj :=
  fun res ns nm =>
    if res = "replicasets" ∧ ns = "ns" ∧ nm = "rs-a" then Except.ok rsObj
    else if res = "deployments" ∧ ns = "ns" ∧ nm = "deploy-a" then
      Except.ok depObj
    else Except.error "the server could not find the requested resource"

/-- A node labelled with architecture `arm64`. -/
def nodeW : NodeInfo := ⟨[("beta.kubernetes.io/arch", "arm64")]⟩

/-- A world in which every step of reconciling `ns/pod-a` succeeds. -/
def wOk : World :=
  { lister := fun ns nm =>
      if ns = "ns" ∧ nm = "pod-a" then Except.ok podW
      else Except.error ListerErr.notFound,
    fetchOwner := fetchW,
    nodeGet := fun n =>
      if n = "node-1" then Except.ok nodeW else Except.error "node not found",
    patchResult := fun _ _ => Except.ok () }

/-- Like `wOk` but the patch request is rejected by the API server. -/
def wPatchFail : World :=
  { wOk with patchResult := fun _ _ => Except.error "patch denied" }

/-- Like `wOk` but every owner fetch fails. -/
def wFetchFail : World :=
  { wOk with fetchOwner := fun _ _ _ => Except.error "owner fetch refused" }

/-- A world whose lister finds nothing. -/
def wNF : World :=
  { lister := fun _ _ => Except.error ListerErr.notFound,
    fetchOwner := fun _ _ _ => Except.error "unused",
    nodeGet := fun _ => Except.error "unused",
    patchResult := fun _ _ => Except.ok () }

/-- A two-container pod whose only crash-looping status names container
`a`. -/
def podC1 : Pod :=
  { kind := "Pod", nspace := "ns", name := "p", resourceVersion := "1",
    nodeName := "n1", containers := [⟨"a"⟩, ⟨"b"⟩],
    containerStatuses := [⟨"a", some "CrashLoopBackOff"⟩],
    ownerReferences := [] }

/-- Logs for `podC1`: the crash-looping container `a` logs something other
than the signature; the healthy container `b` logs exactly the signature. -/
def logsC1 : String → String → String → Except String String :=
  fun _ _ cn =>
    if cn = "a" then Except.ok "some other crash\n" else Except.ok errorMessage

/-- A two-container pod where only container `a` crash-loops (`b` is
running: no waiting reason). -/
def podC3 : Pod :=
  { kind := "Pod", nspace := "ns", name := "p", resourceVersion := "1",
    nodeName := "n1", containers := [⟨"a"⟩, ⟨"b"⟩],
    containerStatuses := [⟨"a", some "CrashLoopBackOff"⟩, ⟨"b", none⟩],
    ownerReferences := [] }

/-- Logs for `podC3`: no container logs the signature. -/
def logsC3 : String → String → String → Except String String :=
  fun _ _ _ => Except.ok "some other crash\n"

/-- A log accessor that fails for container `a` and returns the signature
for every other container. -/
def gC8 : String → Except String String :=
  fun cn => if cn = "a" then Except.error "i/o timeout" else Except.ok errorMessage

/-- A copy of `podC1` carrying a different resource version. -/
def podC9 : Pod := { podC1 with resourceVersion := "2" }

/-
  String basics.
-/

lemma stringExt {s t : String} (h : s.data = t.data) : s = t :=
  congrArg String.mk h

lemma data_append (s t : String) : (s ++ t).data = s.data ++ t.data := by
  cases s
  cases t
  rfl

lemma sappend_assoc (a b c : String) : a ++ b ++ c = a ++ (b ++ c) := by
  apply stringExt
  simp [data_append, List.append_assoc]

/-
  Classifier characterisation.
-/

lemma isSigLog_iff (r : Except String String) :
    isSigLog r = true ↔ r = Except.ok errorMessage := by
  cases r with
  | ok t => simp [isSigLog]
  | error e => simp [isSigLog]

lemma scanContainers_eq (g : String → Except String String)
    (l : List Container) :
    scanContainers g l =
      (l.any (fun c => isSigLog (g c.name)), scanTrace g l) := by
  induction l with
  | nil => rfl
  | cons c rest ih =>
    cases hg : g c.name with
    | error e =>
      simp [scanContainers, scanTrace, hg, ih, isSigLog, List.any_cons]
    | ok t =>
      by_cases ht : t = errorMessage
      · simp [scanContainers, scanTrace, hg, ht, isSigLog, List.any_cons]
      · simp [scanContainers, scanTrace, hg, ht, ih, isSigLog, List.any_cons]

lemma scanTrace_eq_map (g : String → Except String String) (l : List Container)
    (h : l.any (fun c => isSigLog (g c.name)) = false) :
    scanTrace g l = l.map Container.name := by
  induction l with
  | nil => rfl
  | cons c rest ih =>
    simp only [List.any_cons, Bool.or_eq_false_iff] at h
    simp [scanTrace, h.1, ih h.2]

lemma repTrace_succ (n : Nat) (names : List String) :
    repTrace (n + 1) names = names ++ repTrace n names := rfl

lemma countCrash_eq_zero (sts : List ContainerStatus)
    (h : sts.any isCrashLoop = false) : countCrash sts = 0 := by
  induction sts with
  | nil => rfl
  | cons cs rest ih =>
    simp only [List.any_cons, Bool.or_eq_false_iff] at h
    simp [countCrash, h.1, ih h.2]

lemma scanStatuses_eq (g : String → Except String String)
    (cts : List Container) (sts : List ContainerStatus) :
    scanStatuses g cts sts =
      (sts.any isCrashLoop && cts.any (fun c => isSigLog (g c.name)),
       if sts.any isCrashLoop then
         if cts.any (fun c => isSigLog (g c.name)) then scanTrace g cts
         else repTrace (countCrash sts) (cts.map Container.name)
       else []) := by
  induction sts with
  | nil => simp [scanStatuses]
  | cons cs rest ih =>
    by_cases hc : isCrashLoop cs
    · by_cases hm : cts.any (fun c => isSigLog (g c.name))
      · simp [scanStatuses, hc, hm, scanContainers_eq, List.any_cons]
      · have hm2 : cts.any (fun c => isSigLog (g c.name)) = false := by
          simpa using hm
        by_cases hr : rest.any isCrashLoop
        · simp [scanStatuses, hc, hm2, scanContainers_eq, ih, List.any_cons,
            countCrash, repTrace_succ, scanTrace_eq_map g cts hm2, hr]
        · have hr2 : rest.any isCrashLoop = false := by simpa using hr
          simp [scanStatuses, hc, hm2, scanContainers_eq, ih, List.any_cons,
            countCrash, repTrace_succ, repTrace,
            scanTrace_eq_map g cts hm2, hr2, countCrash_eq_zero rest hr2]
    · have hc2 : isCrashLoop cs = false := by simpa using hc
      simp [scanStatuses, hc2, ih, List.any_cons, countCrash]

lemma handleObject_eq (getLogs : String → String → String → Except String String)
    (pod : Pod) :
    handleObject getLogs pod =
      (if pod.containerStatuses.any isCrashLoop &&
          pod.containers.any
            (fun c => isSigLog (getLogs pod.nspace pod.name c.name)) then
        some (metaNamespaceKey pod.nspace pod.name)
      else none,
      if pod.containerStatuses.any isCrashLoop then
        if pod.containers.any
            (fun c => isSigLog (getLogs pod.nspace pod.name c.name)) then
          scanTrace (fun cn => getLogs pod.nspace pod.name cn) pod.containers
        else
          repTrace (countCrash pod.containerStatuses)
            (pod.containers.map Container.name)
      else []) := by
  simp [handleObject, scanStatuses_eq]

lemma handleObject_enqueues_iff
    (getLogs : String → String → String → Except String String) (pod : Pod) :
    (handleObject getLogs pod).1 =
        some (metaNamespaceKey pod.nspace pod.name) ↔
      ((∃ cs ∈ pod.containerStatuses, isCrashLoop cs = true) ∧
       (∃ c ∈ pod.containers,
         getLogs pod.nspace pod.name c.name = Except.ok errorMessage)) := by
  rw [handleObject_eq]
  by_cases h : (pod.containerStatuses.any isCrashLoop &&
      pod.containers.any
        (fun c => isSigLog (getLogs pod.nspace pod.name c.name))) = true
  · rw [if_pos h]
    simp only [Bool.and_eq_true, List.any_eq_true, isSigLog_iff] at h
    simpa using h
  · rw [if_neg h]
    simp only [Bool.and_eq_true, List.any_eq_true, isSigLog_iff] at h
    simpa using h

/-
  Owner-chain resolver.
-/

lemma ownerChain_resolve
    (fetch : String → String → String → Except String KObj)
    (obj term : KObj) (kind tkind : String) (n : Nat)
    (h : OwnerChain fetch obj kind term tkind n) :
    ∀ fuel : Nat, n ≤ fuel →
      getOriginControllerObject fetch obj kind fuel =
        Except.ok (⟨tkind, term.name, term.nspace⟩, n) := by
  induction h with
  | nil obj kind hnone =>
    intro fuel _
    simp [getOriginControllerObject, hnone]
  | cons obj kind ref next term tkind n hsome hf tl ih =>
    intro fuel hle
    cases fuel with
    | zero => omega
    | succ f =>
      have hn : n ≤ f := by omega
      simp [getOriginControllerObject, hsome, hf, ih f hn]

lemma resolveFails_result
    (fetch : String → String → String → Except String KObj)
    (e : String) (o : KObj) (k : Nat)
    (h : ResolveFails fetch e o k) :
    ∀ (kind : String) (fuel : Nat), k < fuel →
      getOriginControllerObject fetch o kind fuel = Except.error e := by
  induction h with
  | here o ref hr hf =>
    intro kind fuel hlt
    cases fuel with
    | zero => omega
    | succ f => simp [getOriginControllerObject, hr, hf]
  | there o ref next k hr hf tl ih =>
    intro kind fuel hlt
    cases fuel with
    | zero => omega
    | succ f =>
      have hk : k < f := by omega
      simp [getOriginControllerObject, hr, hf, ih ref.kind f hk]

/-
  The patch template and its structure.
-/

lemma sprintf1Aux_append (arg post : List Char) :
    ∀ pre : List Char, pre.all (fun c => !(c == '%')) = true →
      sprintf1Aux arg (pre ++ '%' :: 's' :: post) = pre ++ arg ++ post := by
  intro pre
  induction pre with
  | nil =>
    intro
    simp [sprintf1Aux]
  | cons c cs ih =>
    intro h
    simp only [List.all_cons, Bool.and_eq_true] at h
    have hc : ¬(c = '%') := by
      intro hEq
      rw [hEq] at h
      simpa using h.1
    cases hcs : cs ++ '%' :: 's' :: post with
    | nil => simp at hcs
    | cons d ds =>
      rw [List.cons_append, hcs]
      simp only [sprintf1Aux]
      rw [if_neg hc, ← hcs, ih h.2]
      simp [List.append_assoc]

lemma patchJSON_split : patchJSOND = patchPre ++ "%s" ++ patchPost := by decide

lemma buildPatch_split (arch : String) :
    buildPatch arch = patchPre ++ arch ++ patchPost := by
  have hd : patchJSOND.data = patchPre.data ++ '%' :: 's' :: patchPost.data := by
    rw [patchJSON_split, data_append, data_append, List.append_assoc]
    rfl
  have hpre : patchPre.data.all (fun c => !(c == '%')) = true := by decide
  unfold buildPatch sprintf1
  rw [hd, sprintf1Aux_append arch.data patchPost.data patchPre.data hpre]
  apply stringExt
  rw [data_append, data_append]

lemma stripWs_append (s t : String) :
    stripWs (s ++ t) = stripWs s ++ stripWs t := by
  apply stringExt
  simp [stripWs, data_append, List.filter_append]

lemma stripWs_wsFree (s : String) (h : s.data.all (fun c => !isWs c) = true) :
    stripWs s = s := by
  apply stringExt
  show s.data.filter (fun c => !isWs c) = s.data
  exact List.filter_eq_self.mpr (by simpa [List.all_eq_true] using h)

lemma wrap_obj1 (k A B x : String) :
    jobj [jfield k (A ++ x ++ B)] =
      ("\x7b" ++ "\"" ++ k ++ "\"" ++ ":" ++ A) ++ x ++ (B ++ "\x7d") := by
  simp [jobj, jfield, jstr, commaSep, ← sappend_assoc]

lemma wrap_arr1 (A B x : String) :
    jarr [A ++ x ++ B] = ("[" ++ A) ++ x ++ (B ++ "]") := by
  simp [jarr, commaSep, ← sappend_assoc]

lemma wrap_leaf (x : String) :
    jobj [jfield "key" (jstr "beta.kubernetes.io/arch"),
      jfield "operator" (jstr "NotIn"), jfield "values" (jarr [jstr x])] =
      ("\x7b" ++ "\"" ++ "key" ++ "\"" ++ ":" ++ "\"" ++
        "beta.kubernetes.io/arch" ++ "\"" ++ "," ++ "\"" ++ "operator" ++
        "\"" ++ ":" ++ "\"" ++ "NotIn" ++ "\"" ++ "," ++ "\"" ++ "values" ++
        "\"" ++ ":" ++ "[" ++ "\"") ++ x ++ ("\"" ++ "]" ++ "\x7d") := by
  simp [jobj, jfield, jstr, jarr, commaSep, ← sappend_assoc]
  simp [sappend_assoc]

lemma stripWs_buildPatch (arch : String)
    (h : arch.data.all (fun c => !isWs c) = true) :
    stripWs (buildPatch arch) = affinityPatchDoc arch := by
  rw [buildPatch_split, stripWs_append, stripWs_append, stripWs_wsFree arch h]
  unfold affinityPatchDoc
  rw [wrap_leaf, wrap_arr1, wrap_obj1, wrap_arr1, wrap_obj1, wrap_obj1,
    wrap_obj1, wrap_obj1, wrap_obj1, wrap_obj1, wrap_obj1]
  congr 1

/-
  Reconciler plumbing.
-/

lemma process_of_error (w : World) (fuel : Nat) (key e : String)
    (ps : List (controllerObject × String))
    (h : reSchedulePod w fuel key = (Except.error e, ps)) :
    processEnqueuedItem w fuel (WorkItem.str key) =
      (true, [QueueOp.addRateLimited, QueueOp.done], ps) := by
  simp [processEnqueuedItem, h]

lemma process_of_ok (w : World) (fuel : Nat) (key : String)
    (ps : List (controllerObject × String))
    (h : reSchedulePod w fuel key = (Except.ok (), ps)) :
    processEnqueuedItem w fuel (WorkItem.str key) =
      (true, [QueueOp.forget, QueueOp.done], ps) := by
  simp [processEnqueuedItem, h]

/-
  Claim theorems.
-/

/-- C1, counterexample.  The claim says `handleObject` enqueues exactly when
the crash-loop container's captured log equals the signature.  In `podC1`
the only crash-looping container is `a` and its captured log differs from
the signature, yet `handleObject` enqueues the pod: the inner loop of
`handleObject` ranges over all spec containers, and the healthy container
`b` logs the signature. -/
theorem claimC1_counterexample :
    (handleObject logsC1 podC1).1 = some "ns/p" ∧
    logsC1 "ns" "p" "a" = Except.ok "some other crash\n" ∧
    ("some other crash\n" : String) ≠ errorMessage ∧
    (∀ cs ∈ podC1.containerStatuses, isCrashLoop cs = true → cs.name = "a") :=
  ⟨by decide, rfl, by decide, by decide⟩

/-- C1, amended.  `handleObject` enqueues the pod's work key exactly when
some container status is waiting with reason "CrashLoopBackOff" and some
spec container (not necessarily a crash-looping one) has a captured log
byte-identical to `errorMessage`; the comparison is exact equality, never
substring matching, so any other captured content — empty, truncated or
near-but-not-exact — contributes no match; and when no such pair exists
nothing is enqueued. -/
theorem claimC1_amended
    (getLogs : String → String → String → Except String String) (pod : Pod) :
    ((handleObject getLogs pod).1 =
        some (metaNamespaceKey pod.nspace pod.name) ↔
      ((∃ cs ∈ pod.containerStatuses, isCrashLoop cs = true) ∧
       (∃ c ∈ pod.containers,
         getLogs pod.nspace pod.name c.name = Except.ok errorMessage))) ∧
    ((handleObject getLogs pod).1 =
        some (metaNamespaceKey pod.nspace pod.name) ∨
     (handleObject getLogs pod).1 = none) := by
  refine ⟨handleObject_enqueues_iff getLogs pod, ?_⟩
  rw [handleObject_eq]
  by_cases h : (pod.containerStatuses.any isCrashLoop &&
      pod.containers.any
        (fun c => isSigLog (getLogs pod.nspace pod.name c.name))) = true
  · exact Or.inl (by rw [if_pos h])
  · exact Or.inr (by rw [if_neg h])

/-- C2: for every owner chain of depth `n` whose terminal object has no
controlling owner reference, `getOriginControllerObject` returns the
terminal object's declared kind, name and namespace after exactly `n` owner
fetches (the returned counter), and does so for every recursion bound of at
least `n` — in particular it never recurses past the terminal object. -/
theorem claimC2 (fetch : String → String → String → Except String KObj)
    (obj term : KObj) (kind tkind : String) (n fuel : Nat)
    (h : OwnerChain fetch obj kind term tkind n) (hfuel : n ≤ fuel) :
    getOriginControllerObject fetch obj kind fuel =
      Except.ok (⟨tkind, term.name, term.nspace⟩, n) :=
  ownerChain_resolve fetch obj term kind tkind n h fuel hfuel

/-- C2, witness: the two-hop chain pod → ReplicaSet `rs-a` → Deployment
`deploy-a` resolves to the Deployment with exactly two fetches. -/
theorem claimC2_witness :
    getOriginControllerObject fetchW podW.toKObj "Pod" 2 =
      Except.ok (⟨"Deployment", "deploy-a", "ns"⟩, 2) := by
  have h1 : OwnerChain fetchW depObj "Deployment" depObj "Deployment" 0 :=
    OwnerChain.nil depObj "Deployment" rfl
  have h2 : OwnerChain fetchW rsObj "ReplicaSet" depObj "Deployment" 1 :=
    OwnerChain.cons rsObj "ReplicaSet" ⟨"Deployment", "deploy-a", true⟩
      depObj depObj "Deployment" 0 rfl rfl h1
  have h3 : OwnerChain fetchW podW.toKObj "Pod" depObj "Deployment" 2 :=
    OwnerChain.cons podW.toKObj "Pod" ⟨"ReplicaSet", "rs-a", true⟩
      rsObj depObj "Deployment" 1 rfl rfl h2
  exact claimC2 fetchW podW.toKObj depObj "Pod" "Deployment" 2 2 h3
    (Nat.le_refl 2)

/-- C3, counterexample.  The claim says logs are fetched only for containers
whose status is waiting with reason "CrashLoopBackOff".  In `podC3` only
container `a` crash-loops, yet the log request trace of `handleObject`
contains `b` as well: once one status crash-loops, the inner loop requests
the log of every container in the pod spec. -/
theorem claimC3_counterexample :
    (handleObject logsC3 podC3).2 = ["a", "b"] ∧
    (∀ cs ∈ podC3.containerStatuses, isCrashLoop cs = true → cs.name ≠ "b") :=
  ⟨by decide, by decide⟩

/-- C3, amended.  When no container status is waiting with reason
"CrashLoopBackOff" nothing is fetched; otherwise `handleObject` requests the
log of every container of the pod spec, in order, stopping at the first
container whose captured log equals the signature (and then enqueuing and
returning, examining no further containers); with no matching container the
full container list is scanned once per crash-looping status. -/
theorem claimC3_amended
    (getLogs : String → String → String → Except String String) (pod : Pod) :
    handleObject getLogs pod =
      (if pod.containerStatuses.any isCrashLoop &&
          pod.containers.any
            (fun c => isSigLog (getLogs pod.nspace pod.name c.name)) then
        some (metaNamespaceKey pod.nspace pod.name)
      else none,
      if pod.containerStatuses.any isCrashLoop then
        if pod.containers.any
            (fun c => isSigLog (getLogs pod.nspace pod.name c.name)) then
          scanTrace (fun cn => getLogs pod.nspace pod.name cn) pod.containers
        else
          repTrace (countCrash pod.containerStatuses)
            (pod.containers.map Container.name)
      else []) :=
  handleObject_eq getLogs pod

/-- C4: once the work key splits and the pod is found, a failure in
owner-chain resolution, node lookup or patch application makes
`processEnqueuedItem` call `AddRateLimited` (and the deferred `Done`) and
return `true`, while a fully successful reconciliation makes it call
`Forget` (and `Done`) and return `true`: the worker loop never stops. -/
theorem claimC4 (w : World) (fuel : Nat) (key ns nm : String) (pod : Pod)
    (hsplit : splitMetaNamespaceKey key = Except.ok ((ns, nm)))
    (hget : w.lister ns nm = Except.ok pod) :
    (((∃ e, getOriginControllerObject w.fetchOwner pod.toKObj pod.kind fuel =
          Except.error e) ∨
      (∃ e, w.nodeGet pod.nodeName = Except.error e) ∨
      (∃ cobj n node e,
        getOriginControllerObject w.fetchOwner pod.toKObj pod.kind fuel =
          Except.ok ((cobj, n)) ∧
        w.nodeGet pod.nodeName = Except.ok node ∧
        w.patchResult cobj
            (buildPatch (nodeLabel node "beta.kubernetes.io/arch")) =
          Except.error e)) →
      processEnqueuedItem w fuel (WorkItem.str key) =
        (true, [QueueOp.addRateLimited, QueueOp.done],
          (reSchedulePod w fuel key).2)) ∧
    ((∃ cobj n node,
        getOriginControllerObject w.fetchOwner pod.toKObj pod.kind fuel =
          Except.ok ((cobj, n)) ∧
        w.nodeGet pod.nodeName = Except.ok node ∧
        w.patchResult cobj
            (buildPatch (nodeLabel node "beta.kubernetes.io/arch")) =
          Except.ok ()) →
      processEnqueuedItem w fuel (WorkItem.str key) =
        (true, [QueueOp.forget, QueueOp.done],
          (reSchedulePod w fuel key).2)) := by
  constructor
  · rintro (⟨e, he⟩ | ⟨e, he⟩ | ⟨cobj, n, node, e, hres, hnode, hpatch⟩)
    · have h : reSchedulePod w fuel key = (Except.error e, []) := by
        simp [reSchedulePod, hsplit, hget, he]
      rw [h]
      exact process_of_error w fuel key e [] h
    · cases hres : getOriginControllerObject w.fetchOwner pod.toKObj
          pod.kind fuel with
      | error e2 =>
        have h : reSchedulePod w fuel key = (Except.error e2, []) := by
          simp [reSchedulePod, hsplit, hget, hres]
        rw [h]
        exact process_of_error w fuel key e2 [] h
      | ok pr =>
        have h : reSchedulePod w fuel key = (Except.error e, []) := by
          simp [reSchedulePod, hsplit, hget, hres, he]
        rw [h]
        exact process_of_error w fuel key e [] h
    · have h : reSchedulePod w fuel key =
          (Except.error e,
            [(cobj, buildPatch (nodeLabel node "beta.kubernetes.io/arch"))]) := by
        simp [reSchedulePod, hsplit, hget, hres, hnode, hpatch]
      rw [h]
      exact process_of_error w fuel key e _ h
  · rintro ⟨cobj, n, node, hres, hnode, hpatch⟩
    have h : reSchedulePod w fuel key =
        (Except.ok (),
          [(cobj, buildPatch (nodeLabel node "beta.kubernetes.io/arch"))]) := by
      simp [reSchedulePod, hsplit, hget, hres, hnode, hpatch]
    rw [h]
    exact process_of_ok w fuel key _ h

/-- C4, witness: with the patch request denied the key is rate-limited and
the loop continues; with everything succeeding the key is forgotten and the
loop continues. -/
theorem claimC4_witness :
    processEnqueuedItem wPatchFail 3 (WorkItem.str "ns/pod-a") =
      (true, [QueueOp.addRateLimited, QueueOp.done],
        (reSchedulePod wPatchFail 3 "ns/pod-a").2) ∧
    processEnqueuedItem wOk 3 (WorkItem.str "ns/pod-a") =
      (true, [QueueOp.forget, QueueOp.done],
        (reSchedulePod wOk 3 "ns/pod-a").2) :=
  ⟨(claimC4 wPatchFail 3 "ns/pod-a" "ns" "pod-a" podW rfl rfl).1
      (Or.inr (Or.inr ⟨⟨"Deployment", "deploy-a", "ns"⟩, 2, nodeW,
        "patch denied", rfl, rfl, rfl⟩)),
   (claimC4 wOk 3 "ns/pod-a" "ns" "pod-a" podW rfl rfl).2
      ⟨⟨"Deployment", "deploy-a", "ns"⟩, 2, nodeW, rfl, rfl, rfl⟩⟩

/-- C5: a work key that cannot be split into namespace/name, and a key whose
pod is no longer in the cache, are both treated as done: `reSchedulePod`
returns `nil`, so `processEnqueuedItem` calls `Forget` (and the deferred
`Done`), issues no patch, never calls `AddRateLimited`, and the loop
continues. -/
theorem claimC5 :
    (∀ (w : World) (fuel : Nat) (key e : String),
      splitMetaNamespaceKey key = Except.error e →
      processEnqueuedItem w fuel (WorkItem.str key) =
        (true, [QueueOp.forget, QueueOp.done], [])) ∧
    (∀ (w : World) (fuel : Nat) (key ns nm : String),
      splitMetaNamespaceKey key = Except.ok ((ns, nm)) →
      w.lister ns nm = Except.error ListerErr.notFound →
      processEnqueuedItem w fuel (WorkItem.str key) =
        (true, [QueueOp.forget, QueueOp.done], [])) := by
  constructor
  · intro w fuel key e h
    have hr : reSchedulePod w fuel key = (Except.ok (), []) := by
      simp [reSchedulePod, h]
    simp [processEnqueuedItem, hr]
  · intro w fuel key ns nm h1 h2
    have hr : reSchedulePod w fuel key = (Except.ok (), []) := by
      simp [reSchedulePod, h1, h2]
    simp [processEnqueuedItem, hr]

/-- C5, witness: the malformed key `a/b/c` and the vanished pod `a/b` are
both forgotten, not requeued. -/
theorem claimC5_witness :
    processEnqueuedItem wNF 3 (WorkItem.str "a/b/c") =
      (true, [QueueOp.forget, QueueOp.done], []) ∧
    processEnqueuedItem wNF 3 (WorkItem.str "a/b") =
      (true, [QueueOp.forget, QueueOp.done], []) :=
  ⟨claimC5.1 wNF 3 "a/b/c" "unexpected key format: a/b/c" rfl,
   claimC5.2 wNF 3 "a/b" "a" "b" rfl rfl⟩

/-- C6: on the success path `reSchedulePod` issues exactly one patch
request, against the resolved controller object, whose body is the template
filled with the architecture label value read from the pod's assigned node;
and that body, ignoring the template's decorative whitespace, is precisely
the document requiring the pod template to carry a
required-during-scheduling node affinity whose node-selector term demands
the label "beta.kubernetes.io/arch" NotIn exactly the excluded value. -/
theorem claimC6 (w : World) (fuel : Nat) (key ns nm : String) (pod : Pod)
    (cobj : controllerObject) (n : Nat) (node : NodeInfo)
    (hsplit : splitMetaNamespaceKey key = Except.ok ((ns, nm)))
    (hget : w.lister ns nm = Except.ok pod)
    (hres : getOriginControllerObject w.fetchOwner pod.toKObj pod.kind fuel =
      Except.ok ((cobj, n)))
    (hnode : w.nodeGet pod.nodeName = Except.ok node)
    (harch : (nodeLabel node "beta.kubernetes.io/arch").data.all
      (fun c => !isWs c) = true) :
    (reSchedulePod w fuel key).2 =
      [(cobj, buildPatch (nodeLabel node "beta.kubernetes.io/arch"))] ∧
    stripWs (buildPatch (nodeLabel node "beta.kubernetes.io/arch")) =
      affinityPatchDoc (nodeLabel node "beta.kubernetes.io/arch") := by
  constructor
  · cases hp : w.patchResult cobj
        (buildPatch (nodeLabel node "beta.kubernetes.io/arch")) with
    | error e => simp [reSchedulePod, hsplit, hget, hres, hnode, hp]
    | ok u => simp [reSchedulePod, hsplit, hget, hres, hnode, hp]
  · exact stripWs_buildPatch _ harch

/-- C6, witness: for the node labelled `arm64` the single patch request
targets Deployment `deploy-a` and its body renders, whitespace aside, to
the NotIn-`arm64` affinity document. -/
theorem claimC6_witness :
    (reSchedulePod wOk 3 "ns/pod-a").2 =
      [(⟨"Deployment", "deploy-a", "ns"⟩,
        buildPatch (nodeLabel nodeW "beta.kubernetes.io/arch"))] ∧
    stripWs (buildPatch (nodeLabel nodeW "beta.kubernetes.io/arch")) =
      affinityPatchDoc (nodeLabel nodeW "beta.kubernetes.io/arch") :=
  claimC6 wOk 3 "ns/pod-a" "ns" "pod-a" podW ⟨"Deployment", "deploy-a", "ns"⟩
    2 nodeW rfl rfl rfl rfl (by decide)

/-- C7: when the walk reaches an object whose controlling owner cannot be
fetched, `getOriginControllerObject` returns exactly that error (no partial
chain, no controller object), `reSchedulePod` aborts with the same error
having issued no patch request, and `processEnqueuedItem` hands the key
back via `AddRateLimited`. -/
theorem claimC7 (w : World) (fuel : Nat) (key ns nm e : String) (pod : Pod)
    (k : Nat)
    (hsplit : splitMetaNamespaceKey key = Except.ok ((ns, nm)))
    (hget : w.lister ns nm = Except.ok pod)
    (hfail : ResolveFails w.fetchOwner e pod.toKObj k)
    (hfuel : k < fuel) :
    getOriginControllerObject w.fetchOwner pod.toKObj pod.kind fuel =
      Except.error e ∧
    reSchedulePod w fuel key = (Except.error e, []) ∧
    processEnqueuedItem w fuel (WorkItem.str key) =
      (true, [QueueOp.addRateLimited, QueueOp.done], []) := by
  have hres := resolveFails_result w.fetchOwner e pod.toKObj k hfail
    pod.kind fuel hfuel
  have hr : reSchedulePod w fuel key = (Except.error e, []) := by
    simp [reSchedulePod, hsplit, hget, hres]
  exact ⟨hres, hr, process_of_error w fuel key e [] hr⟩

/-- C7, witness: with every owner fetch refused, resolving `ns/pod-a`
propagates the fetch error, no patch is issued, and the key is
rate-limited. -/
theorem claimC7_witness :
    getOriginControllerObject wFetchFail.fetchOwner podW.toKObj "Pod" 3 =
      Except.error "owner fetch refused" ∧
    reSchedulePod wFetchFail 3 "ns/pod-a" =
      (Except.error "owner fetch refused", []) ∧
    processEnqueuedItem wFetchFail 3 (WorkItem.str "ns/pod-a") =
      (true, [QueueOp.addRateLimited, QueueOp.done], []) :=
  claimC7 wFetchFail 3 "ns/pod-a" "ns" "pod-a" "owner fetch refused" podW 0
    rfl rfl
    (ResolveFails.here podW.toKObj ⟨"ReplicaSet", "rs-a", true⟩ rfl rfl)
    (by omega)

/-- C8: inside the classifier a failed log fetch/read for a container is
treated as no match for that container: the scan records the attempt,
proceeds to the remaining containers with an unchanged outcome, and — by
the very type of `scanContainers` — no error ever propagates to the
caller. -/
theorem claimC8 (g : String → Except String String) (c : Container)
    (rest : List Container) (e : String) (h : g c.name = Except.error e) :
    scanContainers g (c :: rest) =
      ((scanContainers g rest).1, c.name :: (scanContainers g rest).2) := by
  simp [scanContainers, h]

/-- C8, witness: container `a` fails with an i/o error, the scan continues
and container `b` still decides the outcome. -/
theorem claimC8_witness :
    scanContainers gC8 [⟨"a"⟩, ⟨"b"⟩] =
      ((scanContainers gC8 [⟨"b"⟩]).1, "a" :: (scanContainers gC8 [⟨"b"⟩]).2) :=
  claimC8 gC8 ⟨"a"⟩ [⟨"b"⟩] "i/o timeout" rfl

/-- C9: the update handler drops the notification — running no log fetch at
all — when old and new resource versions are equal, and otherwise behaves
exactly like `handleObject` on the new pod, enqueuing its work key
precisely when the classifier matches. -/
theorem claimC9
    (getLogs : String → String → String → Except String String)
    (oldPod newPod : Pod) :
    (newPod.resourceVersion = oldPod.resourceVersion →
      onUpdate getLogs oldPod newPod = (none, [])) ∧
    (newPod.resourceVersion ≠ oldPod.resourceVersion →
      onUpdate getLogs oldPod newPod = handleObject getLogs newPod ∧
      ((onUpdate getLogs oldPod newPod).1 =
          some (metaNamespaceKey newPod.nspace newPod.name) ↔
        ((∃ cs ∈ newPod.containerStatuses, isCrashLoop cs = true) ∧
         (∃ c ∈ newPod.containers,
           getLogs newPod.nspace newPod.name c.name =
             Except.ok errorMessage)))) := by
  constructor
  · intro h
    simp [onUpdate, h]
  · intro h
    have he : onUpdate getLogs oldPod newPod = handleObject getLogs newPod := by
      simp [onUpdate, h]
    refine ⟨he, ?_⟩
    rw [he]
    exact handleObject_enqueues_iff getLogs newPod

/-- C9, witness: an update with the unchanged resource version "1" is
dropped; one bumping it to "2" runs the classifier on the new pod. -/
theorem claimC9_witness :
    onUpdate logsC1 podC1 podC1 = (none, []) ∧
    onUpdate logsC1 podC1 podC9 = handleObject logsC1 podC9 :=
  ⟨(claimC9 logsC1 podC1 podC1).1 rfl,
   ((claimC9 logsC1 podC1 podC9).2 (by decide)).1⟩

/-- C10: for every dequeued item, `processEnqueuedItem` performs `Done`
exactly once (the deferred call, running on every path), exactly one of
`Forget` or `AddRateLimited`, and returns `true`; `processStep` on a
non-shutdown pop agrees with it. -/
theorem claimC10 (w : World) (fuel : Nat) (item : WorkItem) :
    (processEnqueuedItem w fuel item).1 = true ∧
    ((processEnqueuedItem w fuel item).2.1.count QueueOp.done = 1 ∧
     (processEnqueuedItem w fuel item).2.1.count QueueOp.forget +
       (processEnqueuedItem w fuel item).2.1.count QueueOp.addRateLimited =
         1) ∧
    processStep w fuel (some item) = processEnqueuedItem w fuel item := by
  cases item with
  | nonString => exact ⟨rfl, ⟨rfl, rfl⟩, rfl⟩
  | str key =>
    cases h : reSchedulePod w fuel key with
    | mk res ps =>
      cases res with
      | error e =>
        refine ⟨?_, ⟨?_, ?_⟩, rfl⟩ <;>
          simp [processEnqueuedItem, h, List.count_cons, List.count_nil] <;>
          decide
      | ok u =>
        refine ⟨?_, ⟨?_, ?_⟩, rfl⟩ <;>
          simp [processEnqueuedItem, h, List.count_cons, List.count_nil] <;>
          decide

end ASC
